import Mathlib

/-!
Verification of the Sequence API client (`src/lib/api.ts`) of the
Carpay Collect frontend.

The client is embedded shallowly:

* JavaScript values produced by `JSON.parse` are modelled by the `Json`
  inductive (JSON never produces `undefined`, functions, or symbols).
* `JSON.parse` and `JSON.stringify` are platform builtins, not repository
  code, so they are passed as parameters (`parse : String → Option Json`,
  with `none` modelling a thrown `SyntaxError`, and
  `stringify : Json → String`).
* A transport response is a pair of an HTTP status and a body text;
  `Response.ok` is `fetch`'s notion: status in [200, 299].
* Thrown `ApiError`s become the `Except ApiError` monad.
-/

namespace CarpayCollect

/-- A JavaScript value as produced by `JSON.parse`. Objects are ordered
association lists of string keys, as in JS insertion order. -/
inductive Json where
  | null : Json
  | bool : Bool → Json
  | num : Int → Json
  | str : String → Json
  | arr : List Json → Json
  | obj : List (String × Json) → Json
  deriving Repr

/-- Look up a key in a JS object's field list (first occurrence;
`JSON.parse` keeps keys unique, last duplicate winning, so parsed objects
have at most one occurrence of each key). -/
def lookupField (fields : List (String × Json)) (key : String) : Option Json :=
  match fields with
  | [] => none
  | (k, v) :: rest => if k = key then some v else lookupField rest key

mutual

/-- JavaScript `String(v)` coercion on JSON-representable values. -/
def jsString : Json → String
  | .null => "null"
  | .bool b => if b then "true" else "false"
  | .num n => toString n
  | .str s => s
  | .arr xs => String.intercalate "," (jsStringElems xs)
  | .obj _ => "[object Object]"

/-- Elements of an array under `Array.prototype.toString`: `null` renders
as the empty string. -/
def jsStringElems : List Json → List String
  | [] => []
  | .null :: rest => "" :: jsStringElems rest
  | x :: rest => jsString x :: jsStringElems rest

end

/-- The typed error thrown by the client (`class ApiError extends Error`):
a human-readable message, the HTTP status code, and the raw parsed payload. -/
structure ApiError where
  message : String
  status : Nat
  payload : Json
  deriving Repr

/-- A transport response as seen by the client: HTTP status code and the
body, read as text (`response.text()` always yields a string). -/
structure Response where
  status : Nat
  bodyText : String

/-- `fetch`'s `Response.ok`: status in the inclusive range 200–299. -/
def Response.ok (r : Response) : Bool :=
  200 ≤ r.status && r.status ≤ 299

/-- `parseJson` from `api.ts`: read the body as text; an empty body yields
`null`; otherwise attempt `JSON.parse`, falling back to the raw text string
when parsing throws. `parse` models `JSON.parse` (`none` = throw). -/
def parseJson (parse : String → Option Json) (text : String) : Json :=
  if text = "" then Json.null
  else
    match parse text with
    | some v => v
    | none => Json.str text

/-- The error-message derivation in `request`: if the parsed payload is a
truthy `object` containing a `message` key, coerce that field to a string;
otherwise synthesize `Request failed (<status>)`. Arrays have `typeof`
`"object"` but a JSON-parsed array never has a `message` property. -/
def errorMessage (payload : Json) (status : Nat) : String :=
  match payload with
  | .obj fields =>
    match lookupField fields "message" with
    | some v => jsString v
    | none => "Request failed (" ++ toString status ++ ")"
  | _ => "Request failed (" ++ toString status ++ ")"

/-- The response-handling half of `request`: parse the body, then either
return the payload (2xx) or throw an `ApiError` built from the status and
payload. -/
def request (parse : String → Option Json) (r : Response) : Except ApiError Json :=
  let payload := parseJson parse r.bodyText
  if r.ok then Except.ok payload
  else Except.error ⟨errorMessage payload r.status, r.status, payload⟩

/-- `normalizeEnrollmentList` from `api.ts`: a bare array is returned as
is; an object whose `enrollments` field is an array yields that array;
failing that, an object whose `data` field is an array yields that array;
anything else throws `ApiError("Expected enrollments array from API", 200, payload)`. -/
def normalizeEnrollmentList (payload : Json) : Except ApiError (List Json) :=
  match payload with
  | .arr xs => Except.ok xs
  | .obj fields =>
    match lookupField fields "enrollments" with
    | some (.arr xs) => Except.ok xs
    | _ =>
      match lookupField fields "data" with
      | some (.arr xs) => Except.ok xs
      | _ => Except.error ⟨"Expected enrollments array from API", 200, payload⟩
  | _ => Except.error ⟨"Expected enrollments array from API", 200, payload⟩

/-- The result of `getTimeline`: a fresh object holding just the `events`
array. -/
structure TimelineResponse where
  events : List Json
  deriving Repr

/-- `normalizeTimeline` from `api.ts`: the only accepted shape is a truthy
object whose `events` field is an array (a bare array is `typeof "object"`
but a JSON-parsed array has no `events` property); anything else throws
`ApiError("Expected timeline response with events[]", 200, payload)`. -/
def normalizeTimeline (payload : Json) : Except ApiError TimelineResponse :=
  match payload with
  | .obj fields =>
    match lookupField fields "events" with
    | some (.arr es) => Except.ok ⟨es⟩
    | _ => Except.error ⟨"Expected timeline response with events[]", 200, payload⟩
  | _ => Except.error ⟨"Expected timeline response with events[]", 200, payload⟩

/-- `sequenceApi.listEnrollments`: GET then normalize the list envelope;
a failed request propagates unchanged. -/
def listEnrollments (parse : String → Option Json) (r : Response) :
    Except ApiError (List Json) :=
  match request parse r with
  | Except.ok payload => normalizeEnrollmentList payload
  | Except.error e => Except.error e

/-- `sequenceApi.getTimeline`: GET then normalize the timeline envelope;
a failed request propagates unchanged. -/
def getTimeline (parse : String → Option Json) (r : Response) :
    Except ApiError TimelineResponse :=
  match request parse r with
  | Except.ok payload => normalizeTimeline payload
  | Except.error e => Except.error e

/-- `sequenceApi.getEnrollment`: plain GET, the parsed payload is returned
with no normalization. -/
def getEnrollment (parse : String → Option Json) (r : Response) :
    Except ApiError Json :=
  request parse r

/-- `sequenceApi.createEnrollment`: plain POST, the parsed payload is
returned with no normalization. -/
def createEnrollment (parse : String → Option Json) (r : Response) :
    Except ApiError Json :=
  request parse r

/-- `sequenceApi.suppressEnrollment`: plain POST, the parsed payload is
returned with no normalization. -/
def suppressEnrollment (parse : String → Option Json) (r : Response) :
    Except ApiError Json :=
  request parse r

/-- `sequenceApi.escalateEnrollment`: plain POST, the parsed payload is
returned with no normalization. -/
def escalateEnrollment (parse : String → Option Json) (r : Response) :
    Except ApiError Json :=
  request parse r

/-- Whether the regex slash-dollar of `.replace` in `API_BASE_URL`
matches: the string's last character is a slash. -/
def endsWithSlash (s : String) : Bool :=
  match s.data.getLast? with
  | some '/' => true
  | _ => false

/-- The `.replace` call of `API_BASE_URL`: the regex matches at most once
(anchored at the end), so it removes one trailing slash if present. -/
def stripTrailingSlash (s : String) : String :=
  if endsWithSlash s then String.mk s.data.dropLast else s

/-- `API_BASE_URL`: the environment value `VITE_API_BASE_URL` with one
trailing slash removed; when the variable is absent the optional chain
yields `undefined` and `?? ""` makes the base empty. -/
def apiBaseUrl (env : Option String) : String :=
  match env with
  | some s => stripTrailingSlash s
  | none => ""

/-- The URL passed to `fetch` in `request`: base URL prefix concatenated
with the operation path. -/
def requestUrl (env : Option String) (path : String) : String :=
  apiBaseUrl env ++ path

/-- The `init` argument of `request`/`fetch` (`RequestInit`). Each field is
optional: `none` means the property is absent or `undefined`. A `body` of
`none` means no body is sent. -/
structure JsInit where
  method : Option String := none
  headers : Option (List (String × String)) := none
  body : Option String := none

/-- JS object spread for header maps: `\x7b ...base, ...extra \x7d` — keys of
`base` keep their position but take `extra`'s value when overridden, and
new keys of `extra` are appended. -/
def spreadAssoc (base extra : List (String × String)) :
    List (String × String) :=
  base.map (fun p =>
    match extra.find? (fun q => q.1 = p.1) with
    | some q => q
    | none => p)
  ++ extra.filter (fun q => ¬ base.any (fun p => p.1 = q.1))

/-- The final options of a `fetch` call. -/
structure FetchOptions where
  method : Option String
  headers : List (String × String)
  body : Option String
  deriving Repr

/-- The options object `request` builds for `fetch`: a headers map merging
`Content-Type: application/json` with `init?.headers ?? \x7b\x7d`, then the
whole `init` spread over it — so an `init` that itself carries a `headers`
property replaces the merged map entirely, while `method` and `body` come
from `init` when present. -/
def buildFetchOptions (init : Option JsInit) : FetchOptions :=
  let initHeaders := init.bind (fun i => i.headers)
  let merged := spreadAssoc [("Content-Type", "application/json")]
    (initHeaders.getD [])
  { method := init.bind (fun i => i.method)
    headers :=
      match initHeaders with
      | some hs => hs
      | none => merged
    body := init.bind (fun i => i.body) }

/-- The `init` built by `apiGet<T>(path)`: `\x7b method: "GET" \x7d`. -/
def apiGetInit : JsInit :=
  { method := some "GET" }

/-- The `init` built by `apiPost<TResponse, TBody>(path, body)`: method
`POST`; the `body` property is `undefined` when the argument is loosely
`== null` (i.e. `null` or `undefined`) and `JSON.stringify(body)`
otherwise. The argument is `none` for `undefined` and `some .null` for
`null`; `stringify` models `JSON.stringify`. -/
def apiPostInit (stringify : Json → String) (body : Option Json) : JsInit :=
  { method := some "POST"
    body :=
      match body with
      | none => none
      | some Json.null => none
      | some b => some (stringify b) }

/-! ### Helper lemmas (shared) -/

theorem request_ok_eq (parse : String → Option Json) (r : Response)
    (hok : r.ok = true) :
    request parse r = Except.ok (parseJson parse r.bodyText) := by
  simp [request, hok]

theorem request_err_eq (parse : String → Option Json) (r : Response)
    (hko : r.ok = false) :
    request parse r =
      Except.error
        ⟨errorMessage (parseJson parse r.bodyText) r.status, r.status,
          parseJson parse r.bodyText⟩ := by
  simp [request, hko]

theorem listEnrollments_ok_eq (parse : String → Option Json) (r : Response)
    (hok : r.ok = true) :
    listEnrollments parse r =
      normalizeEnrollmentList (parseJson parse r.bodyText) := by
  rw [listEnrollments, request_ok_eq parse r hok]

theorem getTimeline_ok_eq (parse : String → Option Json) (r : Response)
    (hok : r.ok = true) :
    getTimeline parse r = normalizeTimeline (parseJson parse r.bodyText) := by
  rw [getTimeline, request_ok_eq parse r hok]

theorem normalizeEnrollmentList_error_eq (payload : Json) (e : ApiError)
    (h : normalizeEnrollmentList payload = Except.error e) :
    e = ⟨"Expected enrollments array from API", 200, payload⟩ := by
  cases payload with
  | null => injection h with h2; exact h2.symm
  | bool b => injection h with h2; exact h2.symm
  | num n => injection h with h2; exact h2.symm
  | str s => injection h with h2; exact h2.symm
  | arr xs => injection h
  | obj fields =>
    rw [normalizeEnrollmentList] at h
    rcases hle : lookupField fields "enrollments" with _ | v <;> rw [hle] at h
    · rcases hld : lookupField fields "data" with _ | w <;> rw [hld] at h
      · injection h with h2; exact h2.symm
      · cases w with
        | arr ys => injection h
        | null => injection h with h2; exact h2.symm
        | bool b => injection h with h2; exact h2.symm
        | num n => injection h with h2; exact h2.symm
        | str s => injection h with h2; exact h2.symm
        | obj fs => injection h with h2; exact h2.symm
    · cases v with
      | arr ys => injection h
      | null =>
        rcases hld : lookupField fields "data" with _ | w <;> rw [hld] at h
        · injection h with h2; exact h2.symm
        · cases w with
          | arr ys => injection h
          | null => injection h with h2; exact h2.symm
          | bool b => injection h with h2; exact h2.symm
          | num n => injection h with h2; exact h2.symm
          | str s => injection h with h2; exact h2.symm
          | obj fs => injection h with h2; exact h2.symm
      | bool b =>
        rcases hld : lookupField fields "data" with _ | w <;> rw [hld] at h
        · injection h with h2; exact h2.symm
        · cases w with
          | arr ys => injection h
          | null => injection h with h2; exact h2.symm
          | bool b => injection h with h2; exact h2.symm
          | num n => injection h with h2; exact h2.symm
          | str s => injection h with h2; exact h2.symm
          | obj fs => injection h with h2; exact h2.symm
      | num n =>
        rcases hld : lookupField fields "data" with _ | w <;> rw [hld] at h
        · injection h with h2; exact h2.symm
        · cases w with
          | arr ys => injection h
          | null => injection h with h2; exact h2.symm
          | bool b => injection h with h2; exact h2.symm
          | num n => injection h with h2; exact h2.symm
          | str s => injection h with h2; exact h2.symm
          | obj fs => injection h with h2; exact h2.symm
      | str s =>
        rcases hld : lookupField fields "data" with _ | w <;> rw [hld] at h
        · injection h with h2; exact h2.symm
        · cases w with
          | arr ys => injection h
          | null => injection h with h2; exact h2.symm
          | bool b => injection h with h2; exact h2.symm
          | num n => injection h with h2; exact h2.symm
          | str s => injection h with h2; exact h2.symm
          | obj fs => injection h with h2; exact h2.symm
      | obj fs =>
        rcases hld : lookupField fields "data" with _ | w <;> rw [hld] at h
        · injection h with h2; exact h2.symm
        · cases w with
          | arr ys => injection h
          | null => injection h with h2; exact h2.symm
          | bool b => injection h with h2; exact h2.symm
          | num n => injection h with h2; exact h2.symm
          | str s => injection h with h2; exact h2.symm
          | obj fs => injection h with h2; exact h2.symm

theorem normalizeTimeline_error_eq (payload : Json) (e : ApiError)
    (h : normalizeTimeline payload = Except.error e) :
    e = ⟨"Expected timeline response with events[]", 200, payload⟩ := by
  cases payload with
  | null => injection h with h2; exact h2.symm
  | bool b => injection h with h2; exact h2.symm
  | num n => injection h with h2; exact h2.symm
  | str s => injection h with h2; exact h2.symm
  | arr xs => injection h with h2; exact h2.symm
  | obj fields =>
    rw [normalizeTimeline] at h
    rcases he : lookupField fields "events" with _ | v <;> rw [he] at h
    · injection h with h2; exact h2.symm
    · cases v with
      | arr es => injection h
      | null => injection h with h2; exact h2.symm
      | bool b => injection h with h2; exact h2.symm
      | num n => injection h with h2; exact h2.symm
      | str s => injection h with h2; exact h2.symm
      | obj fs => injection h with h2; exact h2.symm

theorem normalizeTimeline_ok_inv (payload : Json) (t : TimelineResponse)
    (h : normalizeTimeline payload = Except.ok t) :
    ∃ fields, payload = Json.obj fields ∧
      lookupField fields "events" = some (Json.arr t.events) := by
  cases payload with
  | null => injection h
  | bool b => injection h
  | num n => injection h
  | str s => injection h
  | arr xs => injection h
  | obj fields =>
    rw [normalizeTimeline] at h
    rcases he : lookupField fields "events" with _ | v <;> rw [he] at h
    · injection h
    · cases v with
      | arr es =>
        injection h with h2
        exact ⟨fields, rfl, by rw [← h2]; exact he⟩
      | null => injection h
      | bool b => injection h
      | num n => injection h
      | str s => injection h
      | obj fs => injection h

/-! ### Claim theorems -/

/-- C5. Response-body parsing is total (it is a plain function into
`Json`) and never throws: an empty body parses to `null`; a non-empty body
is attempted as JSON, and on parse failure the raw text itself is returned
instead of an error being raised. -/
theorem parseJson_total_never_throws (parse : String → Option Json)
    (text : String) :
    (text = "" → parseJson parse text = Json.null) ∧
    (text ≠ "" → ∀ v, parse text = some v → parseJson parse text = v) ∧
    (text ≠ "" → parse text = none → parseJson parse text = Json.str text) := by
  refine ⟨fun h => by simp [parseJson, h], fun h v hv => ?_, fun h hn => ?_⟩
  · simp [parseJson, h, hv]
  · simp [parseJson, h, hn]

/-- Witness for C5: the malformed body `"x"` (parser throws) degrades to
the raw text string. -/
theorem parseJson_total_never_throws_witness :
    parseJson (fun _ => none) "x" = Json.str "x" :=
  (parseJson_total_never_throws (fun _ => none) "x").2.2 (by decide) rfl

/-- C8. The base URL prefix used for every request is the configuration
value with its trailing slash stripped; an absent configuration value
yields the empty prefix, so paths are relative to the serving origin. -/
theorem base_url_config :
    (∀ env path, requestUrl env path = apiBaseUrl env ++ path) ∧
    (∀ path, requestUrl none path = path) ∧
    (∀ s path, requestUrl (some (s ++ "/")) path = s ++ path) ∧
    (∀ s, endsWithSlash s = false → apiBaseUrl (some s) = s) := by
  have hdata : ("/" : String).data = ['/'] := rfl
  have hslash : ∀ s : String, endsWithSlash (s ++ "/") = true := by
    intro s
    simp [endsWithSlash, String.data_append, hdata, List.getLast?_concat]
  have hstrip : ∀ s : String, stripTrailingSlash (s ++ "/") = s := by
    intro s
    rw [stripTrailingSlash, hslash s, if_pos rfl, String.data_append, hdata,
      List.dropLast_concat]
  refine ⟨fun env path => rfl, fun path => ?_, fun s path => ?_, fun s h => ?_⟩
  · rw [requestUrl, apiBaseUrl]
    exact String.empty_append path
  · rw [requestUrl, apiBaseUrl, hstrip s]
  · rw [apiBaseUrl, stripTrailingSlash, h]
    simp

/-- Witness for C8: a base with a trailing slash is stripped before
concatenation; one without a trailing slash is used verbatim. -/
theorem base_url_config_witness :
    requestUrl (some ("http://h" ++ "/")) "/api/enrollments" =
        "http://h" ++ "/api/enrollments" ∧
      apiBaseUrl (some "http://h") = "http://h" :=
  ⟨base_url_config.2.2.1 "http://h" "/api/enrollments",
    base_url_config.2.2.2 "http://h" (by decide)⟩

/-- C1. For a 2xx response, `listEnrollments` accepts exactly three
envelope shapes — a bare array, an object whose `enrollments` field is an
array, or an object whose `data` field is an array — and returns the
contained array unchanged in all three cases. -/
theorem listEnrollments_three_envelopes (parse : String → Option Json)
    (r : Response) (hok : r.ok = true) (xs : List Json) :
    (parseJson parse r.bodyText = Json.arr xs →
      listEnrollments parse r = Except.ok xs) ∧
    (∀ fields, parseJson parse r.bodyText = Json.obj fields →
      lookupField fields "enrollments" = some (Json.arr xs) →
      listEnrollments parse r = Except.ok xs) ∧
    (∀ fields, parseJson parse r.bodyText = Json.obj fields →
      (∀ ys, lookupField fields "enrollments" ≠ some (Json.arr ys)) →
      lookupField fields "data" = some (Json.arr xs) →
      listEnrollments parse r = Except.ok xs) ∧
    (listEnrollments parse r = Except.ok xs →
      parseJson parse r.bodyText = Json.arr xs ∨
      ∃ fields, parseJson parse r.bodyText = Json.obj fields ∧
        (lookupField fields "enrollments" = some (Json.arr xs) ∨
          lookupField fields "data" = some (Json.arr xs))) := by
  refine ⟨fun h => ?_, fun fields hp hl => ?_, fun fields hp hne hd => ?_,
    fun h => ?_⟩
  · rw [listEnrollments_ok_eq parse r hok, h, normalizeEnrollmentList]
  · rw [listEnrollments_ok_eq parse r hok, hp]
    simp [normalizeEnrollmentList, hl]
  · rw [listEnrollments_ok_eq parse r hok, hp]
    rcases he : lookupField fields "enrollments" with _ | v
    · simp [normalizeEnrollmentList, he, hd]
    · cases v with
      | arr ys => exact absurd he (hne ys)
      | null => simp [normalizeEnrollmentList, he, hd]
      | bool b => simp [normalizeEnrollmentList, he, hd]
      | num n => simp [normalizeEnrollmentList, he, hd]
      | str s => simp [normalizeEnrollmentList, he, hd]
      | obj fs => simp [normalizeEnrollmentList, he, hd]
  · rw [listEnrollments_ok_eq parse r hok] at h
    generalize hp : parseJson parse r.bodyText = payload at h ⊢
    cases payload with
    | null => simp [normalizeEnrollmentList] at h
    | bool b => simp [normalizeEnrollmentList] at h
    | num n => simp [normalizeEnrollmentList] at h
    | str s => simp [normalizeEnrollmentList] at h
    | arr ys =>
      simp only [normalizeEnrollmentList, Except.ok.injEq] at h
      exact Or.inl (by rw [h])
    | obj fields =>
      refine Or.inr ⟨fields, rfl, ?_⟩
      rw [normalizeEnrollmentList] at h
      rcases he : lookupField fields "enrollments" with _ | v
      · rw [he] at h
        rcases hd : lookupField fields "data" with _ | w
        · rw [hd] at h
          simp at h
        · rw [hd] at h
          cases w <;> simp_all
      · rw [he] at h
        cases v with
        | arr ys => simp_all
        | null =>
          rcases hd : lookupField fields "data" with _ | w
          · rw [hd] at h; simp at h
          · rw [hd] at h; cases w <;> simp_all
        | bool b =>
          rcases hd : lookupField fields "data" with _ | w
          · rw [hd] at h; simp at h
          · rw [hd] at h; cases w <;> simp_all
        | num n =>
          rcases hd : lookupField fields "data" with _ | w
          · rw [hd] at h; simp at h
          · rw [hd] at h; cases w <;> simp_all
        | str s =>
          rcases hd : lookupField fields "data" with _ | w
          · rw [hd] at h; simp at h
          · rw [hd] at h; cases w <;> simp_all
        | obj fs =>
          rcases hd : lookupField fields "data" with _ | w
          · rw [hd] at h; simp at h
          · rw [hd] at h; cases w <;> simp_all

/-- Witness for C1: the same contents under the three envelopes all
normalize to the same array. -/
theorem listEnrollments_three_envelopes_witness :
    listEnrollments (fun _ => some (Json.arr [Json.num 1])) ⟨200, "b"⟩ =
        Except.ok [Json.num 1] ∧
      listEnrollments
          (fun _ => some (Json.obj [("enrollments", Json.arr [Json.num 1])]))
          ⟨200, "b"⟩ =
        Except.ok [Json.num 1] ∧
      listEnrollments
          (fun _ => some (Json.obj [("data", Json.arr [Json.num 1])]))
          ⟨200, "b"⟩ =
        Except.ok [Json.num 1] :=
  ⟨(listEnrollments_three_envelopes (fun _ => some (Json.arr [Json.num 1]))
      ⟨200, "b"⟩ rfl [Json.num 1]).1 rfl,
    (listEnrollments_three_envelopes
      (fun _ => some (Json.obj [("enrollments", Json.arr [Json.num 1])]))
      ⟨200, "b"⟩ rfl [Json.num 1]).2.1 _ rfl rfl,
    (listEnrollments_three_envelopes
      (fun _ => some (Json.obj [("data", Json.arr [Json.num 1])]))
      ⟨200, "b"⟩ rfl [Json.num 1]).2.2.1 _ rfl
      (fun ys h => by simp [lookupField] at h) rfl⟩

/-- C9. The envelope predicates are tried in order: bare array, then the
`enrollments` field, then the `data` field — so when both `enrollments`
and `data` are arrays, `listEnrollments` returns the `enrollments` array
and `data` is ignored. -/
theorem enrollments_field_precedes_data (parse : String → Option Json)
    (r : Response) (hok : r.ok = true) (fields : List (String × Json))
    (xs ys : List Json)
    (hp : parseJson parse r.bodyText = Json.obj fields)
    (he : lookupField fields "enrollments" = some (Json.arr xs))
    (_hd : lookupField fields "data" = some (Json.arr ys)) :
    listEnrollments parse r = Except.ok xs := by
  rw [listEnrollments_ok_eq parse r hok, hp]
  simp [normalizeEnrollmentList, he]

/-- Witness for C9: with both fields present and holding different
arrays, the `enrollments` array wins. -/
theorem enrollments_field_precedes_data_witness :
    listEnrollments
        (fun _ => some (Json.obj
          [("enrollments", Json.arr [Json.num 1]),
            ("data", Json.arr [Json.num 2])]))
        ⟨200, "b"⟩ =
      Except.ok [Json.num 1] :=
  enrollments_field_precedes_data
    (fun _ => some (Json.obj
      [("enrollments", Json.arr [Json.num 1]),
        ("data", Json.arr [Json.num 2])]))
    ⟨200, "b"⟩ rfl _ [Json.num 1] [Json.num 2] rfl rfl rfl

/-- C2. Every non-2xx response rejects with an `ApiError` whose status is
the real HTTP status and whose payload is the parsed body; the message is
the body's `message` field coerced to a string when the parsed body is an
object with a `message` key, and otherwise `Request failed (<status>)`.
The same error propagates through every operation. -/
theorem non2xx_rejects_with_api_error (parse : String → Option Json)
    (r : Response) (hko : r.ok = false) :
    request parse r =
        Except.error
          ⟨errorMessage (parseJson parse r.bodyText) r.status, r.status,
            parseJson parse r.bodyText⟩ ∧
      (∀ fields v, parseJson parse r.bodyText = Json.obj fields →
        lookupField fields "message" = some v →
        errorMessage (parseJson parse r.bodyText) r.status = jsString v) ∧
      (∀ fields, parseJson parse r.bodyText = Json.obj fields →
        lookupField fields "message" = none →
        errorMessage (parseJson parse r.bodyText) r.status =
          "Request failed (" ++ toString r.status ++ ")") ∧
      ((∀ fields, parseJson parse r.bodyText ≠ Json.obj fields) →
        errorMessage (parseJson parse r.bodyText) r.status =
          "Request failed (" ++ toString r.status ++ ")") ∧
      (listEnrollments parse r =
        Except.error
          ⟨errorMessage (parseJson parse r.bodyText) r.status, r.status,
            parseJson parse r.bodyText⟩) ∧
      (getTimeline parse r =
        Except.error
          ⟨errorMessage (parseJson parse r.bodyText) r.status, r.status,
            parseJson parse r.bodyText⟩) ∧
      (getEnrollment parse r =
        Except.error
          ⟨errorMessage (parseJson parse r.bodyText) r.status, r.status,
            parseJson parse r.bodyText⟩) ∧
      (createEnrollment parse r =
        Except.error
          ⟨errorMessage (parseJson parse r.bodyText) r.status, r.status,
            parseJson parse r.bodyText⟩) ∧
      (suppressEnrollment parse r =
        Except.error
          ⟨errorMessage (parseJson parse r.bodyText) r.status, r.status,
            parseJson parse r.bodyText⟩) ∧
      (escalateEnrollment parse r =
        Except.error
          ⟨errorMessage (parseJson parse r.bodyText) r.status, r.status,
            parseJson parse r.bodyText⟩) := by
  have hreq := request_err_eq parse r hko
  refine ⟨hreq, fun fields v hp hm => ?_, fun fields hp hm => ?_,
    fun hno => ?_, ?_, ?_, hreq, hreq, hreq, hreq⟩
  · rw [hp]
    simp [errorMessage, hm]
  · rw [hp]
    simp [errorMessage, hm]
  · cases hpp : parseJson parse r.bodyText with
    | obj fields => exact absurd hpp (hno fields)
    | null => rfl
    | bool b => rfl
    | num n => rfl
    | str s => rfl
    | arr ys => rfl
  · rw [listEnrollments, hreq]
  · rw [getTimeline, hreq]

/-- Witness for C2: status 404 with body object carrying
`message two-colons not found` rejects with message `not found` and status
`404`; status 500 with an empty body synthesizes
`Request failed (500)`. -/
theorem non2xx_rejects_with_api_error_witness :
    request (fun _ => some (Json.obj [("message", Json.str "not found")]))
        ⟨404, "b"⟩ =
      Except.error
        ⟨"not found", 404, Json.obj [("message", Json.str "not found")]⟩ ∧
    request (fun _ => none) ⟨500, ""⟩ =
      Except.error ⟨"Request failed (500)", 500, Json.null⟩ :=
  ⟨(non2xx_rejects_with_api_error
      (fun _ => some (Json.obj [("message", Json.str "not found")]))
      ⟨404, "b"⟩ rfl).1,
    (non2xx_rejects_with_api_error (fun _ => none) ⟨500, ""⟩ rfl).1⟩

/-- C3. For a 2xx response whose payload matches none of the three list
envelopes, `listEnrollments` rejects with an `ApiError` of status 200,
message exactly `Expected enrollments array from API`, carrying the raw
payload. -/
theorem listEnrollments_malformed_rejects (parse : String → Option Json)
    (r : Response) (hok : r.ok = true) :
    (∀ e, listEnrollments parse r = Except.error e →
      e = ⟨"Expected enrollments array from API", 200,
        parseJson parse r.bodyText⟩) ∧
    (∀ fields, parseJson parse r.bodyText = Json.obj fields →
      (∀ ys, lookupField fields "enrollments" ≠ some (Json.arr ys)) →
      (∀ ys, lookupField fields "data" ≠ some (Json.arr ys)) →
      listEnrollments parse r =
        Except.error
          ⟨"Expected enrollments array from API", 200, Json.obj fields⟩) ∧
    (parseJson parse r.bodyText = Json.null →
      listEnrollments parse r =
        Except.error
          ⟨"Expected enrollments array from API", 200, Json.null⟩) ∧
    (∀ s, parseJson parse r.bodyText = Json.str s →
      listEnrollments parse r =
        Except.error
          ⟨"Expected enrollments array from API", 200, Json.str s⟩) ∧
    (∀ b, parseJson parse r.bodyText = Json.bool b →
      listEnrollments parse r =
        Except.error
          ⟨"Expected enrollments array from API", 200, Json.bool b⟩) ∧
    (∀ n, parseJson parse r.bodyText = Json.num n →
      listEnrollments parse r =
        Except.error
          ⟨"Expected enrollments array from API", 200, Json.num n⟩) := by
  have key : ∀ fields, (∀ ys, lookupField fields "enrollments" ≠
        some (Json.arr ys)) →
      (∀ ys, lookupField fields "data" ≠ some (Json.arr ys)) →
      normalizeEnrollmentList (Json.obj fields) =
        Except.error
          ⟨"Expected enrollments array from API", 200, Json.obj fields⟩ := by
    intro fields hne hnd
    rw [normalizeEnrollmentList]
    rcases he : lookupField fields "enrollments" with _ | v
    · rcases hd : lookupField fields "data" with _ | w
      · rfl
      · cases w with
        | arr ys => exact absurd hd (hnd ys)
        | null => rfl
        | bool b => rfl
        | num n => rfl
        | str s => rfl
        | obj fs => rfl
    · cases v with
      | arr ys => exact absurd he (hne ys)
      | null =>
        rcases hd : lookupField fields "data" with _ | w
        · rfl
        · cases w with
          | arr ys => exact absurd hd (hnd ys)
          | null => rfl
          | bool b => rfl
          | num n => rfl
          | str s => rfl
          | obj fs => rfl
      | bool b =>
        rcases hd : lookupField fields "data" with _ | w
        · rfl
        · cases w with
          | arr ys => exact absurd hd (hnd ys)
          | null => rfl
          | bool b => rfl
          | num n => rfl
          | str s => rfl
          | obj fs => rfl
      | num n =>
        rcases hd : lookupField fields "data" with _ | w
        · rfl
        · cases w with
          | arr ys => exact absurd hd (hnd ys)
          | null => rfl
          | bool b => rfl
          | num n => rfl
          | str s => rfl
          | obj fs => rfl
      | str s =>
        rcases hd : lookupField fields "data" with _ | w
        · rfl
        · cases w with
          | arr ys => exact absurd hd (hnd ys)
          | null => rfl
          | bool b => rfl
          | num n => rfl
          | str s => rfl
          | obj fs => rfl
      | obj fs =>
        rcases hd : lookupField fields "data" with _ | w
        · rfl
        · cases w with
          | arr ys => exact absurd hd (hnd ys)
          | null => rfl
          | bool b => rfl
          | num n => rfl
          | str s => rfl
          | obj fs => rfl
  refine ⟨fun e he => ?_, fun fields hp hne hnd => ?_, fun hp => ?_,
    fun s hp => ?_, fun b hp => ?_, fun n hp => ?_⟩
  · rw [listEnrollments_ok_eq parse r hok] at he
    exact normalizeEnrollmentList_error_eq _ e he
  · rw [listEnrollments_ok_eq parse r hok, hp]
    exact key fields hne hnd
  · rw [listEnrollments_ok_eq parse r hok, hp]
    rfl
  · rw [listEnrollments_ok_eq parse r hok, hp]
    rfl
  · rw [listEnrollments_ok_eq parse r hok, hp]
    rfl
  · rw [listEnrollments_ok_eq parse r hok, hp]
    rfl

/-- Witness for C3: the unrecognized envelope with only a `foo` field
rejects with status 200 and the fixed message. -/
theorem listEnrollments_malformed_rejects_witness :
    listEnrollments (fun _ => some (Json.obj [("foo", Json.arr [Json.num 1])]))
        ⟨200, "b"⟩ =
      Except.error
        ⟨"Expected enrollments array from API", 200,
          Json.obj [("foo", Json.arr [Json.num 1])]⟩ :=
  (listEnrollments_malformed_rejects
      (fun _ => some (Json.obj [("foo", Json.arr [Json.num 1])]))
      ⟨200, "b"⟩ rfl).2.1 _ rfl
    (fun ys h => by simp [lookupField] at h)
    (fun ys h => by simp [lookupField] at h)

/-- C4. `getTimeline` accepts exactly one 2xx payload shape — an object
whose `events` field is an array — returning that events array; every
other payload, including a bare array, rejects with the fixed
timeline-shape `ApiError` of status 200 carrying the raw payload. -/
theorem getTimeline_events_envelope (parse : String → Option Json)
    (r : Response) (hok : r.ok = true) :
    (∀ fields es, parseJson parse r.bodyText = Json.obj fields →
      lookupField fields "events" = some (Json.arr es) →
      getTimeline parse r = Except.ok ⟨es⟩) ∧
    (∀ t, getTimeline parse r = Except.ok t →
      ∃ fields, parseJson parse r.bodyText = Json.obj fields ∧
        lookupField fields "events" = some (Json.arr t.events)) ∧
    (∀ e, getTimeline parse r = Except.error e →
      e = ⟨"Expected timeline response with events[]", 200,
        parseJson parse r.bodyText⟩) ∧
    (∀ xs, parseJson parse r.bodyText = Json.arr xs →
      getTimeline parse r =
        Except.error
          ⟨"Expected timeline response with events[]", 200, Json.arr xs⟩) := by
  refine ⟨fun fields es hp hl => ?_, fun t ht => ?_, fun e he => ?_,
    fun xs hp => ?_⟩
  · rw [getTimeline_ok_eq parse r hok, hp]
    simp [normalizeTimeline, hl]
  · rw [getTimeline_ok_eq parse r hok] at ht
    exact normalizeTimeline_ok_inv _ t ht
  · rw [getTimeline_ok_eq parse r hok] at he
    exact normalizeTimeline_error_eq _ e he
  · rw [getTimeline_ok_eq parse r hok, hp]
    rfl

/-- Witness for C4: `events` wrapping an empty array resolves to the empty
sequence, and a bare array rejects with the fixed timeline-shape error. -/
theorem getTimeline_events_envelope_witness :
    getTimeline (fun _ => some (Json.obj [("events", Json.arr [])]))
        ⟨200, "b"⟩ =
      Except.ok ⟨[]⟩ ∧
    getTimeline (fun _ => some (Json.arr [])) ⟨200, "b"⟩ =
      Except.error
        ⟨"Expected timeline response with events[]", 200, Json.arr []⟩ :=
  ⟨(getTimeline_events_envelope
      (fun _ => some (Json.obj [("events", Json.arr [])])) ⟨200, "b"⟩
      rfl).1 _ [] rfl rfl,
    (getTimeline_events_envelope (fun _ => some (Json.arr [])) ⟨200, "b"⟩
      rfl).2.2.2 [] rfl⟩

/-- C6. For `getEnrollment`, `createEnrollment`, `suppressEnrollment` and
`escalateEnrollment`, every 2xx response resolves with the parsed body
exactly as received — no normalization or recomputation — so the
enrollment returned by suppress/escalate carries whatever `status` field
the server asserted. -/
theorem ok_resolves_with_raw_payload (parse : String → Option Json)
    (r : Response) (hok : r.ok = true) :
    getEnrollment parse r = Except.ok (parseJson parse r.bodyText) ∧
    createEnrollment parse r = Except.ok (parseJson parse r.bodyText) ∧
    suppressEnrollment parse r = Except.ok (parseJson parse r.bodyText) ∧
    escalateEnrollment parse r = Except.ok (parseJson parse r.bodyText) ∧
    (∀ fields v, parseJson parse r.bodyText = Json.obj fields →
      lookupField fields "status" = some v →
      suppressEnrollment parse r = Except.ok (Json.obj fields) ∧
        escalateEnrollment parse r = Except.ok (Json.obj fields)) := by
  have h := request_ok_eq parse r hok
  exact ⟨h, h, h, h, fun fields v hp hs =>
    ⟨by rw [← hp]; exact h, by rw [← hp]; exact h⟩⟩

/-- Witness for C6: a suppress response whose body carries status
SUPPRESSED resolves with exactly that object. -/
theorem ok_resolves_with_raw_payload_witness :
    suppressEnrollment
        (fun _ => some (Json.obj [("status", Json.str "SUPPRESSED")]))
        ⟨200, "b"⟩ =
      Except.ok (Json.obj [("status", Json.str "SUPPRESSED")]) :=
  ((ok_resolves_with_raw_payload
      (fun _ => some (Json.obj [("status", Json.str "SUPPRESSED")]))
      ⟨200, "b"⟩ rfl).2.2.2.2 _ (Json.str "SUPPRESSED") rfl rfl).1

/-- C7. Every operation either resolves with its result or rejects with
exactly one `ApiError`; a transport failure propagates unchanged through
every operation — the client never recovers, retries, or swallows it. -/
theorem resolve_or_single_rejection (parse : String → Option Json)
    (r : Response) :
    ((∃ v, listEnrollments parse r = Except.ok v) ∨
      (∃ e, listEnrollments parse r = Except.error e)) ∧
    ((∃ v, getTimeline parse r = Except.ok v) ∨
      (∃ e, getTimeline parse r = Except.error e)) ∧
    ((∃ v, getEnrollment parse r = Except.ok v) ∨
      (∃ e, getEnrollment parse r = Except.error e)) ∧
    ((∃ v, createEnrollment parse r = Except.ok v) ∨
      (∃ e, createEnrollment parse r = Except.error e)) ∧
    ((∃ v, suppressEnrollment parse r = Except.ok v) ∨
      (∃ e, suppressEnrollment parse r = Except.error e)) ∧
    ((∃ v, escalateEnrollment parse r = Except.ok v) ∨
      (∃ e, escalateEnrollment parse r = Except.error e)) ∧
    (∀ e, request parse r = Except.error e →
      listEnrollments parse r = Except.error e ∧
        getTimeline parse r = Except.error e ∧
        getEnrollment parse r = Except.error e ∧
        createEnrollment parse r = Except.error e ∧
        suppressEnrollment parse r = Except.error e ∧
        escalateEnrollment parse r = Except.error e) := by
  have dich : ∀ {α : Type} (x : Except ApiError α),
      (∃ v, x = Except.ok v) ∨ (∃ e, x = Except.error e) := by
    intro α x
    cases x with
    | ok v => exact Or.inl ⟨v, rfl⟩
    | error e => exact Or.inr ⟨e, rfl⟩
  refine ⟨dich _, dich _, dich _, dich _, dich _, dich _, fun e he => ?_⟩
  exact ⟨by rw [listEnrollments, he], by rw [getTimeline, he], he, he, he, he⟩

/-- Witness for C7: a transport failure (500, empty body, JSON parse
refusal) propagates through `listEnrollments` as the single error built by
`request`. -/
theorem resolve_or_single_rejection_witness :
    listEnrollments (fun _ => none) ⟨500, ""⟩ =
      Except.error ⟨"Request failed (500)", 500, Json.null⟩ :=
  ((resolve_or_single_rejection (fun _ => none) ⟨500, ""⟩).2.2.2.2.2.2
    ⟨"Request failed (500)", 500, Json.null⟩ rfl).1

/-- C10. Every POST sends no body at all when the body argument is `null`
or `undefined`, and otherwise exactly the JSON serialization of the
argument; the `Content-Type: application/json` header is attached to every
request the client issues (GET and POST alike). -/
theorem post_body_and_content_type (stringify : Json → String) :
    (buildFetchOptions (some (apiPostInit stringify none))).body = none ∧
    (buildFetchOptions (some (apiPostInit stringify (some Json.null)))).body =
      none ∧
    (∀ b, b ≠ Json.null →
      (buildFetchOptions (some (apiPostInit stringify (some b)))).body =
        some (stringify b)) ∧
    (∀ body, (buildFetchOptions (some (apiPostInit stringify body))).headers =
      [("Content-Type", "application/json")]) ∧
    (buildFetchOptions (some apiGetInit)).headers =
      [("Content-Type", "application/json")] ∧
    (buildFetchOptions (some apiGetInit)).body = none := by
  refine ⟨rfl, rfl, fun b hb => ?_, fun body => rfl, rfl, rfl⟩
  cases b with
  | null => exact absurd rfl hb
  | bool v => rfl
  | num v => rfl
  | str v => rfl
  | arr v => rfl
  | obj v => rfl

/-- Witness for C10: a non-null body is serialized and sent. -/
theorem post_body_and_content_type_witness :
    (buildFetchOptions
        (some (apiPostInit (fun _ => "1") (some (Json.num 1))))).body =
      some "1" :=
  (post_body_and_content_type (fun _ => "1")).2.2.1 (Json.num 1)
    (fun h => Json.noConfusion h)

end CarpayCollect
